import Mathlib

/-!
TMC5160 SPI basic motion example: bring-up sequence and shuttle loop.

A shallow embedding of `src/main.cpp`.  The sketch has two entry points,
`setup()` and `loop()`.  Both talk to three outside parties: the board pins
(`pinMode`, `digitalWrite`), the clock (`delay`) and the vendor stepper driver
object `driver`.  The embedding threads a `World` through every statement; each
statement appends the action it performs to `World.trace` and updates the part
of the world it touches (pin level, clock, register file, poll counter).
-/

namespace TMC5160

/-! ## Compile-time constants (the `#define` lines) -/

/-- SPI clock pin (Arduino Mega). -/
def sck : Nat := 52
/-- Master-out pin. -/
def mosi : Nat := 51
/-- Master-in pin. -/
def miso : Nat := 50
/-- Chip-select pin. -/
def ss : Nat := 53
/-- Driver enable pin. -/
def drv_en : Nat := 7

/-- Sense resistor in ohms. -/
def sense_resistor : ℚ := 0.075
/-- Supply voltage in volts. -/
def supply_voltage : Int := 24
/-- Rated motor voltage. -/
def motor_voltage : Int := 12
/-- Rated motor current in milliamps. -/
def motor_milliamps : Int := 400
/-- Driver clock in Hz. -/
def drv_clock : Int := 12000000
/-- Chopper frequency in Hz. -/
def drv_chop_freq : Int := 35100
/-- Decay fraction, the literal `.7`. -/
def drv_decay_percent : ℚ := 0.7

/-- The macro body of `nominal_amps` with the supply voltage left open:
`(((motor_milliamps * motor_voltage) / supply) * 1.0)`.  The three operands of
the inner expression are integer literals, so `/` is C++ integer division
(truncation toward zero, `Int.tdiv`); `400 * 12 = 4800` fits the 16-bit `int`
of the AVR targets.  The trailing `* 1.0` converts the quotient to a real. -/
def nominal_amps_at (supply : Int) : ℚ :=
  ((Int.tdiv (motor_milliamps * motor_voltage) supply : Int) : ℚ) * 1.0

/-- The macro `nominal_amps`. -/
def nominal_amps : ℚ := nominal_amps_at supply_voltage

/-- The macro `driv_toff`:
`((((100000 / drv_chop_freq) * drv_decay_percent * .5) * drv_clock - 12) / 3200000)`.
`100000 / drv_chop_freq` divides two integer literals, hence `Int.tdiv`; the
product with `.7` is the first real operation, everything after it is real
arithmetic (taken exactly). -/
def driv_toff : ℚ :=
  ((((Int.tdiv 100000 drv_chop_freq : Int) : ℚ) * drv_decay_percent * 0.5)
      * (drv_clock : ℚ) - 12) / 3200000

/-- C++ conversion of a real to an integer type: the fractional part is
discarded (truncation toward zero). -/
def cppTrunc (q : ℚ) : Int := Int.tdiv q.num (q.den : Int)

/-! ## Pins, driver calls, actions -/

/-- Digital pin level. -/
inductive Level where
  | LOW
  | HIGH
deriving DecidableEq

/-- Pin direction. -/
inductive PinMode where
  | INPUT
  | OUTPUT
deriving DecidableEq

/-- The calls the sketch makes on the `driver` object, with the argument values
as written at the call site.  `position_reached` carries the answer the driver
gave. -/
inductive DriverCall where
  | begin
  | recalibrate (v : Int)
  | faststandstill (v : Int)
  | en_pwm_mode (v : Int)
  | multistep_filt (v : Int)
  | shaft (v : Int)
  | small_hysteresis (v : Int)
  | stop_enable (v : Int)
  | direct_mode (v : Int)
  | rms_current (mA : ℚ) (mult : ℚ)
  | diss2vs (v : Int)
  | s2vs_level (v : Int)
  | diss2g (v : Int)
  | s2g_level (v : Int)
  | tbl (v : Int)
  | toff (v : ℚ)
  | pwm_freq (v : Int)
  | RAMPMODE (v : Int)
  | VSTOP (v : Int)
  | VSTART (v : Int)
  | V1 (v : Int)
  | VMAX (v : Int)
  | A1 (v : Int)
  | AMAX (v : Int)
  | DMAX (v : Int)
  | D1 (v : Int)
  | GSTAT (v : Int)
  | XTARGET (v : Int)
  | position_reached (r : Bool)
deriving DecidableEq

/-- One observable action of the sketch. -/
inductive Action where
  | SPI_begin
  | pinMode (pin : Nat) (mode : PinMode)
  | digitalWrite (pin : Nat) (level : Level)
  | delay (ms : Nat)
  | driver (c : DriverCall)
deriving DecidableEq

/-- Names of the driver settings the sketch writes, one per setter; the
two-argument `rms_current` writes the current and the hold multiplier. -/
inductive Reg where
  | recalibrate | faststandstill | en_pwm_mode | multistep_filt | shaft
  | small_hysteresis | stop_enable | direct_mode | rms_current | hold_multiplier
  | diss2vs | s2vs_level | diss2g | s2g_level | tbl | toff | pwm_freq
  | RAMPMODE | VSTOP | VSTART | V1 | VMAX | A1 | AMAX | DMAX | D1 | XTARGET
deriving DecidableEq

/-- Register file of the driver: setting name to the value last written, or
`none` when never written. -/
abbrev RegMap := Reg → Option ℚ

/-- Modelled from the spec: the vendor driver library is not part of the
repository; following the spec, every setter is an absolute overwrite of the
setting it names.  Integer-typed settings that are handed a real (`rms_current`,
`toff`) receive its truncation.  `begin`, `GSTAT` (write-one-to-clear status)
and the `position_reached` query are not setters and write nothing here. -/
def DriverCall.writes : DriverCall → List (Reg × ℚ)
  | .begin => []
  | .recalibrate v => [(.recalibrate, v)]
  | .faststandstill v => [(.faststandstill, v)]
  | .en_pwm_mode v => [(.en_pwm_mode, v)]
  | .multistep_filt v => [(.multistep_filt, v)]
  | .shaft v => [(.shaft, v)]
  | .small_hysteresis v => [(.small_hysteresis, v)]
  | .stop_enable v => [(.stop_enable, v)]
  | .direct_mode v => [(.direct_mode, v)]
  | .rms_current mA mult => [(.rms_current, cppTrunc mA), (.hold_multiplier, mult)]
  | .diss2vs v => [(.diss2vs, v)]
  | .s2vs_level v => [(.s2vs_level, v)]
  | .diss2g v => [(.diss2g, v)]
  | .s2g_level v => [(.s2g_level, v)]
  | .tbl v => [(.tbl, v)]
  | .toff v => [(.toff, cppTrunc v)]
  | .pwm_freq v => [(.pwm_freq, v)]
  | .RAMPMODE v => [(.RAMPMODE, v)]
  | .VSTOP v => [(.VSTOP, v)]
  | .VSTART v => [(.VSTART, v)]
  | .V1 v => [(.V1, v)]
  | .VMAX v => [(.VMAX, v)]
  | .A1 v => [(.A1, v)]
  | .AMAX v => [(.AMAX, v)]
  | .DMAX v => [(.DMAX, v)]
  | .D1 v => [(.D1, v)]
  | .GSTAT _ => []
  | .XTARGET v => [(.XTARGET, v)]
  | .position_reached _ => []

/-- Absolute overwrite of one setting. -/
def RegMap.set (m : RegMap) (rv : Reg × ℚ) : RegMap :=
  fun r => if r = rv.1 then some rv.2 else m r

/-- Everything outside the sketch that it reads or changes. -/
structure World where
  /-- Direction of each pin, once configured. -/
  modes : Nat → Option PinMode
  /-- Level last driven on each pin. -/
  levels : Nat → Option Level
  /-- Milliseconds spent in `delay`. -/
  clock : Nat
  /-- Register file of the driver. -/
  regs : RegMap
  /-- Number of `position_reached` polls made so far. -/
  polls : Nat
  /-- Actions performed so far, oldest first. -/
  trace : List Action

/-- The board at reset: nothing configured, nothing done. -/
def World.boot : World :=
  { modes := fun _ => none, levels := fun _ => none, clock := 0,
    regs := fun _ => none, polls := 0, trace := [] }

/-- The call `SPI.begin()`. -/
def SPI_begin (w : World) : World :=
  { w with trace := w.trace ++ [.SPI_begin] }

/-- The call `pinMode(pin, mode)`. -/
def pinMode (pin : Nat) (mode : PinMode) (w : World) : World :=
  { w with modes := fun p => if p = pin then some mode else w.modes p,
           trace := w.trace ++ [.pinMode pin mode] }

/-- The call `digitalWrite(pin, level)`. -/
def digitalWrite (pin : Nat) (level : Level) (w : World) : World :=
  { w with levels := fun p => if p = pin then some level else w.levels p,
           trace := w.trace ++ [.digitalWrite pin level] }

/-- The call `delay(ms)`. -/
def delay (ms : Nat) (w : World) : World :=
  { w with clock := w.clock + ms, trace := w.trace ++ [.delay ms] }

/-- A call `driver.c(...)` other than the `position_reached` query. -/
def driver (c : DriverCall) (w : World) : World :=
  { w with regs := c.writes.foldl RegMap.set w.regs,
           trace := w.trace ++ [.driver c] }

/-- The query `driver.position_reached()` against a mock driver whose k-th
answer is `mock k`. -/
def position_reached (mock : Nat → Bool) (w : World) : Bool × World :=
  (mock w.polls,
   { w with polls := w.polls + 1,
            trace := w.trace ++ [.driver (.position_reached (mock w.polls))] })

/-! ## `setup()` -/

/-- Lines 131-154: the register setters that follow `driver.begin()` inside
the initial-settings block. -/
def base_config (w : World) : World :=
  w |> driver (.recalibrate 0)
    |> driver (.faststandstill 0)
    |> driver (.en_pwm_mode 0)
    |> driver (.multistep_filt 0)
    |> driver (.shaft 0)
    |> driver (.small_hysteresis 0)
    |> driver (.stop_enable 0)
    |> driver (.direct_mode 0)
    |> driver (.rms_current nominal_amps 1)
    |> driver (.diss2vs 0)
    |> driver (.s2vs_level 6)
    |> driver (.diss2g 0)
    |> driver (.s2g_level 6)
    |> driver (.tbl 2)
    |> driver (.toff driv_toff)
    |> driver (.pwm_freq 1)

/-- Lines 162-175: the ramp-mode block. -/
def ramp_mode (w : World) : World :=
  w |> driver (.RAMPMODE 0)
    |> driver (.VSTOP 10)
    |> driver (.VSTART 0)
    |> driver (.V1 600000)
    |> driver (.VMAX 838809)
    |> driver (.A1 1)
    |> driver (.AMAX 100)
    |> driver (.DMAX 500)
    |> driver (.D1 32000)

/-- Lines 177-182: resetting drive faults and re-enabling the drive. -/
def fault_reset (w : World) : World :=
  w |> digitalWrite drv_en .HIGH
    |> delay 1000
    |> digitalWrite drv_en .LOW
    |> driver (.GSTAT 7)

/-- The function `setup()`. -/
def setup (w : World) : World :=
  w |> SPI_begin
    |> pinMode sck .OUTPUT
    |> pinMode ss .OUTPUT
    |> pinMode drv_en .OUTPUT
    |> digitalWrite drv_en .LOW
    |> driver .begin
    |> base_config
    |> ramp_mode
    |> fault_reset

/-! ## `loop()` against a mock driver -/

/-- The statement `while (driver.position_reached() == 0);`, cut off after
`fuel` polls: `.error w` is the world at the cutoff (the real sketch would still
be spinning), `.ok w` the world once a poll has answered true. -/
def busy_wait (mock : Nat → Bool) : Nat → World → Except World World
  | 0, w => .error w
  | fuel + 1, w =>
    if (position_reached mock w).1 = false then
      busy_wait mock fuel (position_reached mock w).2
    else .ok (position_reached mock w).2

/-- One pass of the function `loop()`; `cutoff` bounds each busy-wait. -/
def loop (mock : Nat → Bool) (cutoff : Nat) (w : World) : Except World World :=
  let w1 := if (position_reached mock w).1 = true
            then driver (.XTARGET 250000) (position_reached mock w).2
            else (position_reached mock w).2
  match busy_wait mock cutoff w1 with
  | .error e => .error e
  | .ok w2 =>
    let w3 := if (position_reached mock w2).1 = true
              then driver (.XTARGET 0) (position_reached mock w2).2
              else (position_reached mock w2).2
    busy_wait mock cutoff w3

/-- The Arduino core calls `loop()` forever; `run_loop` makes at most `passes`
passes and stops at the first busy-wait that hits the cutoff. -/
def run_loop (mock : Nat → Bool) (cutoff : Nat) : Nat → World → Except World World
  | 0, w => .ok w
  | passes + 1, w =>
    match loop mock cutoff w with
    | .error e => .error e
    | .ok w1 => run_loop mock cutoff passes w1

/-- The world a bounded run ends in, completed or cut off. -/
def lastWorld : Except World World → World
  | .ok w => w
  | .error w => w

/-- A mock whose `position_reached` answers false for the first `N` polls and
true from then on. -/
def reachedAfter (N : Nat) : Nat → Bool := fun k => decide (N ≤ k)

/-! ## Observations on traces -/

/-- The actions performed between world `w0` and the later world `w`. -/
def emitted (w0 w : World) : List Action := w.trace.drop w0.trace.length

/-- The target position an action commands, if it is an `XTARGET` write. -/
def Action.target? : Action → Option Int
  | .driver (.XTARGET v) => some v
  | _ => none

/-- The target-position commands of a trace, in order. -/
def targets (l : List Action) : List Int := l.filterMap Action.target?

/-- The effect of one action on the level of `pin`. -/
def levelStep (pin : Nat) (cur : Option Level) : Action → Option Level
  | .digitalWrite p lv => if p = pin then some lv else cur
  | _ => cur

/-- The level of `pin` after the actions `l`, `none` while it was never driven. -/
def pinLevelAfter (pin : Nat) (l : List Action) : Option Level :=
  l.foldl (levelStep pin) none

/-- The register-configuration calls of `setup()`: `begin` and every setter of
the base-configuration and ramp-mode blocks. -/
def DriverCall.isConfig : DriverCall → Bool
  | .GSTAT _ => false
  | .XTARGET _ => false
  | .position_reached _ => false
  | _ => true

/-- Control points of `loop()`: the two guarded commands and the two
busy-waits. -/
inductive Pc where
  | ifA
  | cmdA
  | waitA
  | ifB
  | cmdB
  | waitB
deriving DecidableEq

/-- Control-flow automaton of `loop()` run against `mock`: from control point
`s.1` with `s.2` polls made, the action `a` is possible exactly when the result
is `some`. -/
def Pc.step (mock : Nat → Bool) (s : Pc × Nat) : Action → Option (Pc × Nat)
  | .driver (.position_reached b) =>
    if b = mock s.2 then
      match s.1 with
      | .ifA => some (if b then .cmdA else .waitA, s.2 + 1)
      | .waitA => some (if b then .ifB else .waitA, s.2 + 1)
      | .ifB => some (if b then .cmdB else .waitB, s.2 + 1)
      | .waitB => some (if b then .ifA else .waitB, s.2 + 1)
      | _ => none
    else none
  | .driver (.XTARGET v) =>
    match s.1 with
    | .cmdA => if v = 250000 then some (.waitA, s.2) else none
    | .cmdB => if v = 0 then some (.waitB, s.2) else none
    | _ => none
  | _ => none

/-- Running the automaton over a list of actions. -/
def Pc.walk (mock : Nat → Bool) (s : Option (Pc × Nat)) (l : List Action) :
    Option (Pc × Nat) :=
  l.foldl (fun o a => o.bind (fun t => Pc.step mock t a)) s

/-- The commands one pass issues when its two guards answer `g.1` and `g.2`. -/
def passTargets (g : Bool × Bool) : List Int :=
  (if g.1 then [250000] else []) ++ (if g.2 then [0] else [])

/-- World `w` lies on a run of `loop()` that started a pass in world `w0`: the
actions performed since are a path of the control-flow automaton from the start
of a pass to control point `q`, consistent with the answers of `mock`. -/
def Reaches (mock : Nat → Bool) (w0 w : World) (q : Pc) : Prop :=
  ∃ l, w.trace = w0.trace ++ l ∧
    Pc.walk mock (some (.ifA, w0.polls)) l = some (q, w.polls)

/-! ## Helper lemmas: arithmetic of the derived constants -/

theorem nominal_amps_eq : nominal_amps = 200 := by
  norm_num [nominal_amps, nominal_amps_at, motor_milliamps, motor_voltage, supply_voltage,
    Int.tdiv]

theorem driv_toff_eq : driv_toff = 2099997 / 800000 := by
  norm_num [driv_toff, drv_chop_freq, drv_decay_percent, drv_clock, Int.tdiv]

theorem cppTrunc_of_nonneg (q : ℚ) (hq : 0 ≤ q) : cppTrunc q = ⌊q⌋ := by
  unfold cppTrunc
  rw [Int.tdiv_eq_ediv (Rat.num_nonneg.mpr hq) (by exact_mod_cast Nat.zero_le _)]
  exact (Rat.floor_def' q).symm

theorem cppTrunc_driv_toff : cppTrunc driv_toff = 2 := by
  rw [cppTrunc_of_nonneg _ (by rw [driv_toff_eq]; norm_num), driv_toff_eq, Int.floor_eq_iff]
  constructor <;> norm_num

/-! ## Helper lemmas: the trace of `setup()` -/

theorem emitted_append (w0 w : World) (l : List Action) (h : w.trace = w0.trace ++ l) :
    emitted w0 w = l := by
  simp [emitted, h]

theorem base_config_trace (w : World) :
    (base_config w).trace = w.trace ++
      [.driver (.recalibrate 0), .driver (.faststandstill 0), .driver (.en_pwm_mode 0),
       .driver (.multistep_filt 0), .driver (.shaft 0), .driver (.small_hysteresis 0),
       .driver (.stop_enable 0), .driver (.direct_mode 0),
       .driver (.rms_current nominal_amps 1),
       .driver (.diss2vs 0), .driver (.s2vs_level 6), .driver (.diss2g 0),
       .driver (.s2g_level 6),
       .driver (.tbl 2), .driver (.toff driv_toff), .driver (.pwm_freq 1)] := by
  simp [base_config, driver]

theorem ramp_mode_trace (w : World) :
    (ramp_mode w).trace = w.trace ++
      [.driver (.RAMPMODE 0), .driver (.VSTOP 10), .driver (.VSTART 0),
       .driver (.V1 600000), .driver (.VMAX 838809), .driver (.A1 1),
       .driver (.AMAX 100), .driver (.DMAX 500), .driver (.D1 32000)] := by
  simp [ramp_mode, driver]

theorem fault_reset_trace (w : World) :
    (fault_reset w).trace = w.trace ++
      [.digitalWrite drv_en .HIGH, .delay 1000, .digitalWrite drv_en .LOW,
       .driver (.GSTAT 7)] := by
  simp [fault_reset, driver, digitalWrite, delay]

theorem setup_trace (w : World) :
    (setup w).trace = w.trace ++
      [.SPI_begin, .pinMode sck .OUTPUT, .pinMode ss .OUTPUT, .pinMode drv_en .OUTPUT,
       .digitalWrite drv_en .LOW,
       .driver .begin,
       .driver (.recalibrate 0), .driver (.faststandstill 0), .driver (.en_pwm_mode 0),
       .driver (.multistep_filt 0), .driver (.shaft 0), .driver (.small_hysteresis 0),
       .driver (.stop_enable 0), .driver (.direct_mode 0),
       .driver (.rms_current nominal_amps 1),
       .driver (.diss2vs 0), .driver (.s2vs_level 6), .driver (.diss2g 0),
       .driver (.s2g_level 6),
       .driver (.tbl 2), .driver (.toff driv_toff), .driver (.pwm_freq 1),
       .driver (.RAMPMODE 0), .driver (.VSTOP 10), .driver (.VSTART 0),
       .driver (.V1 600000), .driver (.VMAX 838809), .driver (.A1 1),
       .driver (.AMAX 100), .driver (.DMAX 500), .driver (.D1 32000),
       .digitalWrite drv_en .HIGH, .delay 1000, .digitalWrite drv_en .LOW,
       .driver (.GSTAT 7)] := by
  simp [setup, base_config_trace, ramp_mode_trace, fault_reset_trace, driver, digitalWrite,
    pinMode, SPI_begin]

theorem setup_emitted (w : World) :
    emitted w (setup w) =
      [.SPI_begin, .pinMode sck .OUTPUT, .pinMode ss .OUTPUT, .pinMode drv_en .OUTPUT,
       .digitalWrite drv_en .LOW,
       .driver .begin,
       .driver (.recalibrate 0), .driver (.faststandstill 0), .driver (.en_pwm_mode 0),
       .driver (.multistep_filt 0), .driver (.shaft 0), .driver (.small_hysteresis 0),
       .driver (.stop_enable 0), .driver (.direct_mode 0),
       .driver (.rms_current nominal_amps 1),
       .driver (.diss2vs 0), .driver (.s2vs_level 6), .driver (.diss2g 0),
       .driver (.s2g_level 6),
       .driver (.tbl 2), .driver (.toff driv_toff), .driver (.pwm_freq 1),
       .driver (.RAMPMODE 0), .driver (.VSTOP 10), .driver (.VSTART 0),
       .driver (.V1 600000), .driver (.VMAX 838809), .driver (.A1 1),
       .driver (.AMAX 100), .driver (.DMAX 500), .driver (.D1 32000),
       .digitalWrite drv_en .HIGH, .delay 1000, .digitalWrite drv_en .LOW,
       .driver (.GSTAT 7)] :=
  emitted_append _ _ _ (setup_trace w)

theorem setup_blocks (w : World) :
    emitted w (setup w) =
      [.SPI_begin, .pinMode sck .OUTPUT, .pinMode ss .OUTPUT, .pinMode drv_en .OUTPUT,
       .digitalWrite drv_en .LOW, .driver .begin]
      ++ emitted w (base_config w) ++ emitted w (ramp_mode w) ++ emitted w (fault_reset w) := by
  rw [setup_emitted, emitted_append _ _ _ (base_config_trace w),
    emitted_append _ _ _ (ramp_mode_trace w), emitted_append _ _ _ (fault_reset_trace w)]
  rfl

/-! ## The claims about `setup()` -/

/-- C2: the last four actions of `setup()`, in this order and with nothing
between them, are: drive the enable pin HIGH (disabled), delay 1000 ms, drive
the enable pin LOW (enabled), `driver.GSTAT(7)`.  They are all `setup()` does
after `driver.D1(32000)`, so no register write lies between the disable and the
re-enable, and the only time `setup()` spends in `delay` is these 1000 ms. -/
theorem setup_ends_with_fault_reset (w : World) :
    (∃ pre, emitted w (setup w) =
        pre ++ [Action.driver (.D1 32000)] ++
          [Action.digitalWrite drv_en .HIGH, Action.delay 1000,
           Action.digitalWrite drv_en .LOW, Action.driver (.GSTAT 7)])
    ∧ (setup w).clock = w.clock + 1000 := by
  refine ⟨⟨(emitted w (setup w)).take 30, ?_⟩, ?_⟩
  · rw [setup_emitted]
    rfl
  · simp [setup, base_config, ramp_mode, fault_reset, driver, digitalWrite, delay, pinMode,
      SPI_begin]

/-- C6: the base-configuration block of `setup()`, the calls after
`driver.begin()` up to and including `driver.pwm_freq`, issues exactly the
sixteen listed driver calls with the listed values, where `nominal_amps` is 200;
none of them is an `XTARGET` write and none writes the enable pin; in `setup()`
the block sits right after `driver.begin()`. -/
theorem base_config_calls (w : World) :
    emitted w (base_config w) =
      [Action.driver (.recalibrate 0), Action.driver (.faststandstill 0),
       Action.driver (.en_pwm_mode 0), Action.driver (.multistep_filt 0),
       Action.driver (.shaft 0), Action.driver (.small_hysteresis 0),
       Action.driver (.stop_enable 0), Action.driver (.direct_mode 0),
       Action.driver (.rms_current nominal_amps 1),
       Action.driver (.diss2vs 0), Action.driver (.s2vs_level 6),
       Action.driver (.diss2g 0), Action.driver (.s2g_level 6),
       Action.driver (.tbl 2), Action.driver (.toff driv_toff),
       Action.driver (.pwm_freq 1)]
    ∧ nominal_amps = 200
    ∧ (∀ a ∈ emitted w (base_config w),
        (∀ v, a ≠ Action.driver (.XTARGET v)) ∧ (∀ lv, a ≠ Action.digitalWrite drv_en lv))
    ∧ (∃ pre post, emitted w (setup w) =
        pre ++ [Action.driver .begin] ++ emitted w (base_config w)
          ++ Action.driver (.RAMPMODE 0) :: post) := by
  have hb := emitted_append _ _ _ (base_config_trace w)
  refine ⟨hb, nominal_amps_eq, ?_, ?_⟩
  · intro a ha
    rw [hb] at ha
    simp only [List.mem_cons, List.mem_singleton, List.not_mem_nil, or_false] at ha
    constructor
    · intro v hv
      subst hv
      simp at ha
    · intro lv hlv
      subst hlv
      simp at ha
  · refine ⟨(emitted w (setup w)).take 5, (emitted w (setup w)).drop 23, ?_⟩
    rw [setup_emitted, hb]
    rfl

/-- C8: the motion-profile block of `setup()` issues exactly the nine
ramp-generator writes RAMPMODE(0), VSTOP(10), VSTART(0), V1(600000),
VMAX(838809), A1(1), AMAX(100), DMAX(500), D1(32000); in `setup()` they come
after the base-configuration block and before the fault-clear sequence, and no
action outside the block writes one of these nine registers. -/
theorem ramp_mode_calls (w : World) :
    emitted w (ramp_mode w) =
      [Action.driver (.RAMPMODE 0), Action.driver (.VSTOP 10), Action.driver (.VSTART 0),
       Action.driver (.V1 600000), Action.driver (.VMAX 838809), Action.driver (.A1 1),
       Action.driver (.AMAX 100), Action.driver (.DMAX 500), Action.driver (.D1 32000)]
    ∧ (∃ pre, emitted w (setup w) =
        pre ++ emitted w (base_config w) ++ emitted w (ramp_mode w)
          ++ emitted w (fault_reset w)
        ∧ ∀ a ∈ pre ++ emitted w (base_config w) ++ emitted w (fault_reset w),
            ∀ c, a = Action.driver c → ∀ x ∈ c.writes,
              x.1 ∉ [Reg.RAMPMODE, .VSTOP, .VSTART, .V1, .VMAX, .A1, .AMAX, .DMAX, .D1]) := by
  refine ⟨emitted_append _ _ _ (ramp_mode_trace w),
    [.SPI_begin, .pinMode sck .OUTPUT, .pinMode ss .OUTPUT, .pinMode drv_en .OUTPUT,
      .digitalWrite drv_en .LOW, .driver .begin], setup_blocks w, ?_⟩
  intro a ha c hc x hx
  rw [emitted_append _ _ _ (base_config_trace w),
    emitted_append _ _ _ (fault_reset_trace w)] at ha
  subst hc
  simp only [List.cons_append, List.nil_append, List.mem_cons, List.mem_singleton,
    List.not_mem_nil, or_false, reduceCtorEq, false_or, Action.driver.injEq] at ha
  rcases ha with h | h | h | h | h | h | h | h | h | h | h | h | h | h | h | h | h | h <;>
    subst h <;> simp [DriverCall.writes] at hx <;> (try rcases hx with rfl | rfl) <;> simp

/-- C9: with the driver as a map from setting name to value and every setter an
absolute overwrite, running the base-configuration block a second time leaves
the register map exactly as the first run left it, from any starting world. -/
theorem base_config_idempotent (w : World) :
    (base_config (base_config w)).regs = (base_config w).regs := by
  funext r
  cases r <;> simp [base_config, driver, DriverCall.writes, RegMap.set]

/-- C10: with the repository constants the `driv_toff` expression, evaluated
with C++ integer division for `100000 / drv_chop_freq` and exact arithmetic
otherwise, is 2.62499625, not the 3.36 of the source comment; truncated it is
2, outside the documented 3 or 4, and this is the value `setup()` hands to
`driver.toff`. -/
theorem driv_toff_value :
    driv_toff = 2.62499625 ∧ driv_toff ≠ 3.36 ∧ cppTrunc driv_toff = 2
    ∧ cppTrunc driv_toff ≠ 3 ∧ cppTrunc driv_toff ≠ 4
    ∧ ∀ w, Action.driver (.toff driv_toff) ∈ emitted w (setup w)
        ∧ ∀ v, Action.driver (.toff v) ∈ emitted w (setup w) → cppTrunc v = 2 := by
  refine ⟨?_, ?_, cppTrunc_driv_toff, ?_, ?_, ?_⟩
  · rw [driv_toff_eq]; norm_num
  · rw [driv_toff_eq]; norm_num
  · rw [cppTrunc_driv_toff]; decide
  · rw [cppTrunc_driv_toff]; decide
  · intro w
    rw [setup_emitted]
    constructor
    · simp
    · intro v h
      simp at h
      rw [h, cppTrunc_driv_toff]

/-- C7: for every positive supply voltage the `nominal_amps` expression is the
integer quotient of `motor_milliamps * motor_voltage` by the supply voltage (the
integer q with q * s ≤ 4800 < (q + 1) * s), read as a real; for the repository
values 12, 400 and 24 it is exactly 200, and `setup()` passes this value, and
no other, to `driver.rms_current`. -/
theorem nominal_amps_quotient (s : Int) (hs : 0 < s) :
    nominal_amps_at s = (((motor_milliamps * motor_voltage) / s : Int) : ℚ)
    ∧ (∃ q : Int, nominal_amps_at s = (q : ℚ)
        ∧ q * s ≤ motor_milliamps * motor_voltage
        ∧ motor_milliamps * motor_voltage < (q + 1) * s)
    ∧ nominal_amps = nominal_amps_at supply_voltage
    ∧ motor_voltage = 12 ∧ motor_milliamps = 400 ∧ supply_voltage = 24
    ∧ nominal_amps = 200
    ∧ ∀ w, Action.driver (.rms_current 200 1) ∈ emitted w (setup w)
        ∧ ∀ a m, Action.driver (.rms_current a m) ∈ emitted w (setup w) → a = 200 := by
  have hq : nominal_amps_at s = (((motor_milliamps * motor_voltage) / s : Int) : ℚ) := by
    unfold nominal_amps_at
    rw [Int.tdiv_eq_ediv (by decide) hs.le]
    norm_num
  refine ⟨hq, ⟨_, hq, ?_, ?_⟩, rfl, rfl, rfl, rfl, nominal_amps_eq, ?_⟩
  · exact Int.ediv_mul_le _ (ne_of_gt hs)
  · exact Int.lt_ediv_add_one_mul_self _ hs
  · intro w
    rw [setup_emitted, nominal_amps_eq]
    constructor
    · simp
    · intro a m h
      simp at h
      exact h.1

/-- C7 at the repository supply voltage of 24 V. -/
theorem nominal_amps_quotient_witness :
    nominal_amps_at 24 = (((motor_milliamps * motor_voltage) / 24 : Int) : ℚ) :=
  (nominal_amps_quotient 24 (by decide)).1

/-- C1, as stated, fails: when `setup()` issues `driver.begin()`, its sixth
action and first configuration call, the enable pin is LOW (enabled), not HIGH. -/
theorem setup_config_not_held_disabled :
    ¬ (∀ i c, (emitted World.boot (setup World.boot))[i]? = some (Action.driver c) →
        c.isConfig = true →
        pinLevelAfter drv_en ((emitted World.boot (setup World.boot)).take i)
          = some Level.HIGH) := by
  intro h
  have h5 := h 5 .begin (by rw [setup_emitted]; rfl) rfl
  rw [setup_emitted] at h5
  simp [pinLevelAfter, levelStep] at h5

/-- C1, amended: at every register-configuration call of `setup()`
(`driver.begin()` through `driver.D1(32000)`) the enable pin is at the enabled
level LOW; throughout the fault-clear delay it is at the disabled level HIGH;
the pin is driven HIGH only after all configuration calls have been issued,
and it is driven LOW before the first of them. -/
theorem setup_enable_pin_levels (w : World) (i : Nat) (a : Action)
    (h : (emitted w (setup w))[i]? = some a) :
    (∀ c, a = Action.driver c → c.isConfig = true →
        pinLevelAfter drv_en ((emitted w (setup w)).take i) = some Level.LOW)
    ∧ (∀ ms, a = Action.delay ms →
        pinLevelAfter drv_en ((emitted w (setup w)).take i) = some Level.HIGH)
    ∧ (a = Action.digitalWrite drv_en .HIGH →
        ∀ j c, (emitted w (setup w))[j]? = some (Action.driver c) → c.isConfig = true →
          j < i)
    ∧ (∀ c, a = Action.driver c → c.isConfig = true →
        ∃ j, j < i ∧ (emitted w (setup w))[j]? = some (Action.digitalWrite drv_en .LOW)) := by
  rw [setup_emitted] at h ⊢
  have hi : i < 35 := by
    have := (List.getElem?_eq_some.mp h).1
    simpa using this
  interval_cases i <;> simp at h <;> subst h <;>
    simp [pinLevelAfter, levelStep]
  all_goals first | exact fun _ => ⟨4, by omega, rfl⟩ | skip
  intro j c hj hc
  have hj35 : j < 35 := by
    have := (List.getElem?_eq_some.mp hj).1
    simpa using this
  by_contra hlt
  have h31 : 31 ≤ j := by omega
  interval_cases j <;> simp at hj
  subst hj
  simp [DriverCall.isConfig] at hc


/-- C1 amended, at `driver.begin()`, the sixth action of `setup()`. -/
theorem setup_enable_pin_levels_witness :
    (emitted World.boot (setup World.boot))[5]? = some (Action.driver .begin)
    ∧ pinLevelAfter drv_en ((emitted World.boot (setup World.boot)).take 5)
        = some Level.LOW :=
  ⟨by rw [setup_emitted]; rfl,
   (setup_enable_pin_levels World.boot 5 (.driver .begin)
      (by rw [setup_emitted]; rfl)).1 .begin rfl rfl⟩

/-! ## Helper lemmas: the control-flow automaton of `loop()` -/

theorem walk_nil (m : Nat → Bool) (s : Option (Pc × Nat)) : Pc.walk m s [] = s := rfl

theorem walk_cons (m : Nat → Bool) (s : Pc × Nat) (a : Action) (l : List Action) :
    Pc.walk m (some s) (a :: l) = Pc.walk m (Pc.step m s a) l := by
  simp [Pc.walk]

theorem walk_append (m : Nat → Bool) (s : Option (Pc × Nat)) (l1 l2 : List Action) :
    Pc.walk m s (l1 ++ l2) = Pc.walk m (Pc.walk m s l1) l2 := by
  simp [Pc.walk, List.foldl_append]

theorem walk_none (m : Nat → Bool) (l : List Action) : Pc.walk m none l = none := by
  induction l with
  | nil => rfl
  | cons a l ih => simpa [Pc.walk] using ih

theorem walk_snoc (m : Nat → Bool) (s t : Pc × Nat) (l : List Action) (a : Action)
    (h : Pc.walk m (some s) (l ++ [a]) = some t) :
    ∃ u, Pc.walk m (some s) l = some u ∧ Pc.step m u a = some t := by
  rw [walk_append] at h
  cases hu : Pc.walk m (some s) l with
  | none => rw [hu, walk_none] at h; cases h
  | some u =>
    rw [hu, walk_cons, walk_nil] at h
    exact ⟨u, rfl, h⟩

theorem reaches_refl (m : Nat → Bool) (w0 : World) : Reaches m w0 w0 .ifA :=
  ⟨[], by simp, rfl⟩

theorem reaches_snoc {m : Nat → Bool} {w0 w : World} {q : Pc} (h : Reaches m w0 w q)
    (a : Action) (w1 : World) (q1 : Pc) (ht : w1.trace = w.trace ++ [a])
    (hs : Pc.step m (q, w.polls) a = some (q1, w1.polls)) : Reaches m w0 w1 q1 := by
  obtain ⟨l, hl, hw⟩ := h
  refine ⟨l ++ [a], by rw [ht, hl, List.append_assoc], ?_⟩
  rw [walk_append, hw, walk_cons, walk_nil, hs]

theorem reaches_poll {m : Nat → Bool} {w0 w : World} {q : Pc} (h : Reaches m w0 w q)
    (q1 : Pc)
    (hs : Pc.step m (q, w.polls) (.driver (.position_reached (m w.polls)))
            = some (q1, w.polls + 1)) :
    Reaches m w0 (position_reached m w).2 q1 :=
  reaches_snoc h _ _ q1 rfl hs

theorem busy_wait_reaches (m : Nat → Bool) (w0 : World) (q next : Pc)
    (hq : (q = .waitA ∧ next = .ifB) ∨ (q = .waitB ∧ next = .ifA)) :
    ∀ (fuel : Nat) (w : World), Reaches m w0 w q →
      match busy_wait m fuel w with
      | .ok w1 => Reaches m w0 w1 next
      | .error w1 => Reaches m w0 w1 q := by
  intro fuel
  induction fuel with
  | zero => intro w h; simpa [busy_wait] using h
  | succ f ih =>
    intro w h
    simp only [busy_wait]
    by_cases hb : m w.polls = false
    · have hb1 : (position_reached m w).1 = false := hb
      rw [if_pos hb1]
      apply ih
      apply reaches_poll h
      rcases hq with ⟨rfl, rfl⟩ | ⟨rfl, rfl⟩ <;> simp [Pc.step, hb]
    · have hb1 : ¬ (position_reached m w).1 = false := hb
      rw [if_neg hb1]
      apply reaches_poll h
      simp only [Bool.not_eq_false] at hb
      rcases hq with ⟨rfl, rfl⟩ | ⟨rfl, rfl⟩ <;> simp [Pc.step, hb]

theorem guard_reaches (m : Nat → Bool) (w0 w : World) (q cmd wait : Pc) (v : Int)
    (hq : (q = .ifA ∧ cmd = .cmdA ∧ wait = .waitA ∧ v = 250000)
        ∨ (q = .ifB ∧ cmd = .cmdB ∧ wait = .waitB ∧ v = 0))
    (h : Reaches m w0 w q) :
    Reaches m w0
      (if (position_reached m w).1 = true
       then driver (.XTARGET v) (position_reached m w).2
       else (position_reached m w).2) wait := by
  by_cases hb : m w.polls = true
  · have hb1 : (position_reached m w).1 = true := hb
    rw [if_pos hb1]
    have h1 : Reaches m w0 (position_reached m w).2 cmd := by
      apply reaches_poll h
      rcases hq with ⟨rfl, rfl, rfl, rfl⟩ | ⟨rfl, rfl, rfl, rfl⟩ <;> simp [Pc.step, hb]
    refine reaches_snoc h1 (.driver (.XTARGET v)) _ wait rfl ?_
    rcases hq with ⟨rfl, rfl, rfl, rfl⟩ | ⟨rfl, rfl, rfl, rfl⟩ <;> simp [Pc.step, driver]
  · have hb1 : ¬ (position_reached m w).1 = true := hb
    rw [if_neg hb1]
    apply reaches_poll h
    simp only [Bool.not_eq_true] at hb
    rcases hq with ⟨rfl, rfl, rfl, rfl⟩ | ⟨rfl, rfl, rfl, rfl⟩ <;> simp [Pc.step, hb]

theorem loop_reaches (m : Nat → Bool) (cutoff : Nat) (w0 w : World)
    (h : Reaches m w0 w .ifA) :
    match loop m cutoff w with
    | .ok w1 => Reaches m w0 w1 .ifA
    | .error w1 => Reaches m w0 w1 .waitA ∨ Reaches m w0 w1 .waitB := by
  have h1 := guard_reaches m w0 w .ifA .cmdA .waitA 250000 (Or.inl ⟨rfl, rfl, rfl, rfl⟩) h
  have h2 := busy_wait_reaches m w0 .waitA .ifB (Or.inl ⟨rfl, rfl⟩) cutoff _ h1
  unfold loop
  simp only []
  split at h2
  · rename_i w2 hw2
    rw [hw2]
    simp only []
    have h3 := guard_reaches m w0 w2 .ifB .cmdB .waitB 0 (Or.inr ⟨rfl, rfl, rfl, rfl⟩) h2
    have h4 := busy_wait_reaches m w0 .waitB .ifA (Or.inr ⟨rfl, rfl⟩) cutoff _ h3
    split at h4
    · exact h4
    · exact Or.inr h4
  · rename_i w2 hw2
    rw [hw2]
    exact Or.inl h2

theorem run_loop_reaches (m : Nat → Bool) (cutoff : Nat) (w0 : World) :
    ∀ (passes : Nat) (w : World), Reaches m w0 w .ifA →
      ∃ q, (q = .ifA ∨ q = .waitA ∨ q = .waitB) ∧
        Reaches m w0 (lastWorld (run_loop m cutoff passes w)) q := by
  intro passes
  induction passes with
  | zero => intro w h; exact ⟨.ifA, Or.inl rfl, h⟩
  | succ n ih =>
    intro w h
    have h1 := loop_reaches m cutoff w0 w h
    simp only [run_loop]
    split at h1
    · rename_i w1 hw1
      rw [hw1]
      exact ih w1 h1
    · rename_i w1 hw1
      rw [hw1]
      rcases h1 with h1 | h1
      · exact ⟨.waitA, Or.inr (Or.inl rfl), h1⟩
      · exact ⟨.waitB, Or.inr (Or.inr rfl), h1⟩

/-- The actions of a bounded run form a path of the automaton that ends at the
start of a pass or inside one of the two busy-waits. -/
theorem run_loop_walk (m : Nat → Bool) (cutoff passes : Nat) (w0 : World) :
    ∃ q n, (q = .ifA ∨ q = .waitA ∨ q = .waitB) ∧
      Pc.walk m (some (.ifA, w0.polls))
        (emitted w0 (lastWorld (run_loop m cutoff passes w0))) = some (q, n) := by
  obtain ⟨q, hq, l, hl, hw⟩ := run_loop_reaches m cutoff w0 passes w0 (reaches_refl m w0)
  exact ⟨q, _, hq, by rw [emitted_append _ _ _ hl]; exact hw⟩

theorem step_xtarget {m : Nat → Bool} {s t : Pc × Nat} {v : Int}
    (h : Pc.step m s (.driver (.XTARGET v)) = some t) :
    (s.1 = .cmdA ∧ v = 250000 ∧ t = (.waitA, s.2)) ∨ (s.1 = .cmdB ∧ v = 0 ∧ t = (.waitB, s.2)) := by
  obtain ⟨q, n⟩ := s
  cases q <;> simp [Pc.step] at h
  · exact Or.inl ⟨rfl, h.1, h.2.symm⟩
  · exact Or.inr ⟨rfl, h.1, h.2.symm⟩

theorem step_into_cmd {m : Nat → Bool} {u t : Pc × Nat} {a : Action}
    (h : Pc.step m u a = some t) (ht : t.1 = .cmdA ∨ t.1 = .cmdB) :
    a = .driver (.position_reached true) ∧ m u.2 = true := by
  obtain ⟨q, n⟩ := u
  cases a with
  | driver c =>
    cases c with
    | position_reached b =>
      cases b <;> cases q <;> simp [Pc.step] at h <;> obtain ⟨hm, rfl⟩ := h <;>
        simp at ht <;> exact ⟨rfl, hm⟩
    | XTARGET v =>
      rcases step_xtarget h with ⟨_, _, rfl⟩ | ⟨_, _, rfl⟩ <;> simp at ht
    | _ => simp [Pc.step] at h
  | _ => simp [Pc.step] at h

theorem step_from_ifB {m : Nat → Bool} {n : Nat} {t : Pc × Nat} {a : Action}
    (h : Pc.step m (.ifB, n) a = some t) :
    a = .driver (.position_reached (m n)) ∧ t = (if m n then .cmdB else .waitB, n + 1) := by
  cases a with
  | driver c =>
    cases c with
    | position_reached b =>
      simp [Pc.step] at h
      obtain ⟨rfl, rfl⟩ := h
      exact ⟨rfl, rfl⟩
    | _ => simp [Pc.step] at h
  | _ => simp [Pc.step] at h

theorem step_from_cmdB {m : Nat → Bool} {n : Nat} {t : Pc × Nat} {a : Action}
    (h : Pc.step m (.cmdB, n) a = some t) : a = .driver (.XTARGET 0) := by
  cases a with
  | driver c =>
    cases c with
    | XTARGET v =>
      simp [Pc.step] at h
      rw [h.1]
    | position_reached b => simp [Pc.step] at h
    | _ => simp [Pc.step] at h
  | _ => simp [Pc.step] at h

theorem walk_polls_false {m : Nat → Bool} {t : Pc × Nat} :
    ∀ (k : Nat) (n : Nat),
      Pc.walk m (some (.waitA, n))
        (List.replicate k (Action.driver (.position_reached false))) = some t →
      t = (.waitA, n + k) := by
  intro k
  induction k with
  | zero => intro n h; simpa [walk_nil] using h.symm
  | succ k ih =>
    intro n h
    rw [List.replicate_succ, walk_cons] at h
    by_cases hm : m n = false
    · have hs : Pc.step m (.waitA, n) (.driver (.position_reached false))
          = some (.waitA, n + 1) := by simp [Pc.step, hm]
      rw [hs] at h
      rw [ih (n + 1) h]
      congr 1
      omega
    · have hs : Pc.step m (.waitA, n) (.driver (.position_reached false)) = none := by
        simp only [Bool.not_eq_false] at hm
        simp [Pc.step, hm]
      rw [hs, walk_none] at h
      cases h

/-- In a path of the automaton from the start of a pass, an `XTARGET` command
comes right after a poll that answered true. -/
theorem walk_xtarget_pred {m : Nat → Bool} {n0 : Nat} {t : Pc × Nat} {pre rest : List Action}
    {v : Int}
    (h : Pc.walk m (some (.ifA, n0)) (pre ++ Action.driver (.XTARGET v) :: rest) = some t) :
    ∃ pre1 k, pre = pre1 ++ [Action.driver (.position_reached true)] ∧ m k = true := by
  rw [walk_append] at h
  cases hu : Pc.walk m (some (.ifA, n0)) pre with
  | none => rw [hu, walk_none] at h; cases h
  | some u =>
    rw [hu, walk_cons] at h
    cases hs : Pc.step m u (.driver (.XTARGET v)) with
    | none => rw [hs, walk_none] at h; cases h
    | some u1 =>
      have hcmd : u.1 = .cmdA ∨ u.1 = .cmdB := by
        rcases step_xtarget hs with ⟨h1, _⟩ | ⟨h1, _⟩
        · exact Or.inl h1
        · exact Or.inr h1
      rcases List.eq_nil_or_concat pre with rfl | ⟨L, b, rfl⟩
      · rw [walk_nil] at hu
        cases hu
        simp at hcmd
      · rw [List.concat_eq_append] at hu ⊢
        obtain ⟨u0, _, hstep⟩ := walk_snoc m _ _ _ _ hu
        obtain ⟨rfl, hm⟩ := step_into_cmd hstep hcmd
        exact ⟨L, _, rfl, hm⟩

/-- In a path of the automaton that ends where a bounded run can end: after
`XTARGET(250000)` and a busy-wait that ends with poll number `j` answering true,
the next action is the guard poll of the second `if`, and when that poll answers
true the action after it is `XTARGET(0)`. -/
theorem walk_after_reached {m : Nat → Bool} {n0 n : Nat} {q : Pc} {pre rest : List Action}
    {k : Nat} (hq : q = .ifA ∨ q = .waitA ∨ q = .waitB)
    (h : Pc.walk m (some (.ifA, n0))
          (pre ++ [Action.driver (.XTARGET 250000)]
            ++ List.replicate k (Action.driver (.position_reached false))
            ++ [Action.driver (.position_reached true)] ++ rest) = some (q, n)) :
    ∃ j rest1, m j = true ∧ rest = Action.driver (.position_reached (m (j + 1))) :: rest1 ∧
      (m (j + 1) = true → ∃ r, rest1 = Action.driver (.XTARGET 0) :: r) := by
  simp only [walk_append] at h
  cases hu : Pc.walk m (some (.ifA, n0)) pre with
  | none => simp [hu, walk_none] at h
  | some u =>
    rw [hu, walk_cons, walk_nil] at h
    cases hs : Pc.step m u (.driver (.XTARGET 250000)) with
    | none => simp [hs, walk_none] at h
    | some u1 =>
      rw [hs] at h
      have hu1 : u1 = (.waitA, u.2) := by
        rcases step_xtarget hs with ⟨_, _, h1⟩ | ⟨_, h1, _⟩
        · exact h1
        · norm_num at h1
      subst hu1
      cases hw : Pc.walk m (some (.waitA, u.2))
          (List.replicate k (Action.driver (.position_reached false))) with
      | none => simp [hw, walk_none] at h
      | some u2 =>
        rw [hw, walk_cons, walk_nil] at h
        have hu2 := walk_polls_false k u.2 hw
        subst hu2
        by_cases hm : m (u.2 + k) = true
        · have hs2 : Pc.step m (.waitA, u.2 + k) (.driver (.position_reached true))
              = some (.ifB, u.2 + k + 1) := by simp [Pc.step, hm]
          rw [hs2] at h
          refine ⟨u.2 + k, ?_⟩
          cases rest with
          | nil =>
            rw [walk_nil] at h
            cases h
            simp at hq
          | cons a rest1 =>
            rw [walk_cons] at h
            cases hs3 : Pc.step m (.ifB, u.2 + k + 1) a with
            | none => simp [hs3, walk_none] at h
            | some u3 =>
              obtain ⟨rfl, rfl⟩ := step_from_ifB hs3
              refine ⟨rest1, hm, rfl, ?_⟩
              intro hm1
              rw [hs3, hm1] at h
              simp only [if_true] at h
              cases rest1 with
              | nil =>
                rw [walk_nil] at h
                cases h
                simp at hq
              | cons a1 r =>
                rw [walk_cons] at h
                cases hs4 : Pc.step m (.cmdB, u.2 + k + 1 + 1) a1 with
                | none => simp [hs4, walk_none] at h
                | some u4 => exact ⟨r, by rw [step_from_cmdB hs4]⟩
        · have hs2 : Pc.step m (.waitA, u.2 + k) (.driver (.position_reached true)) = none := by
            simp only [Bool.not_eq_true] at hm
            simp [Pc.step, hm]
          simp [hs2, walk_none] at h

/-! ## Helper lemmas: target commands and completion of bounded runs -/

theorem targets_append (l1 l2 : List Action) : targets (l1 ++ l2) = targets l1 ++ targets l2 := by
  simp [targets]

theorem busy_wait_targets (m : Nat → Bool) :
    ∀ (fuel : Nat) (w : World),
      ∃ l, (lastWorld (busy_wait m fuel w)).trace = w.trace ++ l ∧ targets l = [] := by
  intro fuel
  induction fuel with
  | zero => intro w; exact ⟨[], by simp [busy_wait, lastWorld], rfl⟩
  | succ f ih =>
    intro w
    simp only [busy_wait]
    split
    · obtain ⟨l, hl, ht⟩ := ih (position_reached m w).2
      refine ⟨Action.driver (.position_reached (m w.polls)) :: l, ?_, ?_⟩
      · rw [hl]
        simp [position_reached]
      · simpa [targets, Action.target?] using ht
    · exact ⟨[Action.driver (.position_reached (m w.polls))], rfl, rfl⟩

theorem guard_targets (m : Nat → Bool) (w : World) (v : Int) :
    ∃ l, (if (position_reached m w).1 = true
          then driver (.XTARGET v) (position_reached m w).2
          else (position_reached m w).2).trace = w.trace ++ l
      ∧ targets l = if m w.polls then [v] else [] := by
  by_cases hb : m w.polls = true
  · refine ⟨[.driver (.position_reached true), .driver (.XTARGET v)], ?_, ?_⟩
    · simp [position_reached, driver, hb]
    · simp [hb, targets, Action.target?]
  · simp only [Bool.not_eq_true] at hb
    refine ⟨[.driver (.position_reached false)], ?_, ?_⟩
    · simp [position_reached, hb]
    · simp [hb, targets, Action.target?]

theorem guard_polls (m : Nat → Bool) (w : World) (v : Int) :
    (if (position_reached m w).1 = true
     then driver (.XTARGET v) (position_reached m w).2
     else (position_reached m w).2).polls = w.polls + 1 := by
  split <;> rfl

theorem busy_wait_ok_polls (m : Nat → Bool) :
    ∀ (fuel : Nat) (w w1 : World), busy_wait m fuel w = .ok w1 →
      ∃ j, w.polls ≤ j ∧ m j = true ∧ (∀ i, w.polls ≤ i → i < j → m i = false)
        ∧ w1.polls = j + 1 := by
  intro fuel
  induction fuel with
  | zero => intro w w1 h; simp [busy_wait] at h
  | succ f ih =>
    intro w w1 h
    simp only [busy_wait] at h
    by_cases hb : m w.polls = false
    · have hb1 : (position_reached m w).1 = false := hb
      rw [if_pos hb1] at h
      obtain ⟨j, hj, hm, hall, hp⟩ := ih _ _ h
      have hj1 : w.polls + 1 ≤ j := hj
      refine ⟨j, by omega, hm, ?_, hp⟩
      intro i hi hij
      rcases Nat.eq_or_lt_of_le hi with rfl | hlt
      · exact hb
      · exact hall i hlt hij
    · have hb1 : ¬ (position_reached m w).1 = false := hb
      rw [if_neg hb1] at h
      simp only [Except.ok.injEq] at h
      subst h
      simp only [Bool.not_eq_false] at hb
      exact ⟨w.polls, le_refl _, hb, fun i hi hij => by omega, rfl⟩

theorem loop_ok_targets (m : Nat → Bool) (cutoff : Nat) (w w1 : World)
    (h : loop m cutoff w = .ok w1) :
    ∃ j l, w.polls < j ∧ m j = true ∧ (∀ i, w.polls < i → i < j → m i = false)
      ∧ w1.trace = w.trace ++ l ∧ targets l = passTargets (m w.polls, m (j + 1)) := by
  unfold loop at h
  simp only [] at h
  obtain ⟨lA, hA, tA⟩ := guard_targets m w 250000
  obtain ⟨l2, h2, t2⟩ := busy_wait_targets m cutoff
    (if (position_reached m w).1 = true
     then driver (.XTARGET 250000) (position_reached m w).2
     else (position_reached m w).2)
  split at h
  · cases h
  · rename_i w2 hw2
    rw [hw2] at h2
    simp only [lastWorld] at h2
    obtain ⟨j, hj, hm, hall, hp⟩ := busy_wait_ok_polls m cutoff _ w2 hw2
    rw [guard_polls] at hj hall
    obtain ⟨lB, hB, tB⟩ := guard_targets m w2 0
    obtain ⟨l4, h4, t4⟩ := busy_wait_targets m cutoff
      (if (position_reached m w2).1 = true
       then driver (.XTARGET 0) (position_reached m w2).2
       else (position_reached m w2).2)
    rw [h] at h4
    simp only [lastWorld] at h4
    refine ⟨j, lA ++ l2 ++ lB ++ l4, by omega, hm, fun i hi hij => hall i (by omega) hij, ?_, ?_⟩
    · rw [h4, hB, h2, hA]
      simp
    · rw [← hp]
      simp [targets_append, tA, t2, tB, t4, passTargets]

theorem run_loop_ok_targets (m : Nat → Bool) (cutoff : Nat) :
    ∀ (passes : Nat) (w w1 : World), run_loop m cutoff passes w = .ok w1 →
      ∃ (gs : List (Bool × Bool)) (l : List Action), gs.length = passes
        ∧ w1.trace = w.trace ++ l
        ∧ targets l = (gs.map passTargets).flatten := by
  intro passes
  induction passes with
  | zero =>
    intro w w1 h
    simp only [run_loop, Except.ok.injEq] at h
    subst h
    exact ⟨[], [], rfl, by simp, rfl⟩
  | succ n ih =>
    intro w w1 h
    simp only [run_loop] at h
    split at h
    · cases h
    · rename_i w2 hw2
      obtain ⟨j, l, _, _, _, hl, ht⟩ := loop_ok_targets m cutoff w w2 hw2
      obtain ⟨gs, l1, hlen, hl1, ht1⟩ := ih w2 w1 h
      refine ⟨(m w.polls, m (j + 1)) :: gs, l ++ l1, by simp [hlen],
        by rw [hl1, hl, List.append_assoc], ?_⟩
      simp [targets_append, ht, ht1]

theorem loop_all_true (m : Nat → Bool) (hm : ∀ k, m k = true) (c : Nat) (w : World) :
    ∃ w1, loop m (c + 1) w = .ok w1 ∧ targets (emitted w w1) = [250000, 0] := by
  refine ⟨_, by simp [loop, busy_wait, position_reached, hm]; rfl, ?_⟩
  simp [emitted, position_reached, driver, hm, targets, Action.target?]

theorem emitted_trans (w0 w1 w2 : World) (l1 l2 : List Action)
    (h1 : w1.trace = w0.trace ++ l1) (h2 : w2.trace = w1.trace ++ l2) :
    emitted w0 w2 = emitted w0 w1 ++ emitted w1 w2 := by
  rw [emitted_append w0 w1 l1 h1, emitted_append w1 w2 l2 h2,
    emitted_append w0 w2 (l1 ++ l2) (by rw [h2, h1, List.append_assoc])]

theorem run_loop_all_true (m : Nat → Bool) (hm : ∀ k, m k = true) (c : Nat) :
    ∀ (passes : Nat) (w : World), ∃ w1, run_loop m (c + 1) passes w = .ok w1
      ∧ targets (emitted w w1) = (List.replicate passes [250000, 0]).flatten := by
  intro passes
  induction passes with
  | zero => intro w; exact ⟨w, rfl, by simp [emitted, targets]⟩
  | succ n ih =>
    intro w
    obtain ⟨w2, hw2, ht2⟩ := loop_all_true m hm c w
    obtain ⟨w1, hw1, ht1⟩ := ih w2
    refine ⟨w1, by simp only [run_loop, hw2]; exact hw1, ?_⟩
    obtain ⟨_, l, _, _, _, hl, _⟩ := loop_ok_targets m (c + 1) w w2 hw2
    obtain ⟨_, l1, _, hl1, _⟩ := run_loop_ok_targets m (c + 1) n w2 w1 hw1
    rw [emitted_trans w w2 w1 l l1 hl hl1, targets_append, ht2, ht1, List.replicate_succ,
      List.flatten_cons]

theorem busy_wait_ok_reachedAfter (N : Nat) :
    ∀ (fuel : Nat) (w : World), 0 < fuel → N < w.polls + fuel →
      ∃ w1, busy_wait (reachedAfter N) fuel w = .ok w1 := by
  intro fuel
  induction fuel with
  | zero => intro w h; omega
  | succ f ih =>
    intro w _ hN
    simp only [busy_wait]
    by_cases hb : N ≤ w.polls
    · have hb1 : ¬ (position_reached (reachedAfter N) w).1 = false := by
        simp [position_reached, reachedAfter, hb]
      rw [if_neg hb1]
      exact ⟨_, rfl⟩
    · have hb1 : (position_reached (reachedAfter N) w).1 = false := by
        simp [position_reached, reachedAfter, hb]
      rw [if_pos hb1]
      apply ih
      · omega
      · simp only [position_reached]
        omega

theorem loop_ok_reachedAfter (N cutoff : Nat) (h : N < cutoff) (w : World) :
    ∃ w1, loop (reachedAfter N) cutoff w = .ok w1 := by
  obtain ⟨w2, hw2⟩ := busy_wait_ok_reachedAfter N cutoff
    (if (position_reached (reachedAfter N) w).1 = true
     then driver (.XTARGET 250000) (position_reached (reachedAfter N) w).2
     else (position_reached (reachedAfter N) w).2) (by omega) (by rw [guard_polls]; omega)
  obtain ⟨w4, hw4⟩ := busy_wait_ok_reachedAfter N cutoff
    (if (position_reached (reachedAfter N) w2).1 = true
     then driver (.XTARGET 0) (position_reached (reachedAfter N) w2).2
     else (position_reached (reachedAfter N) w2).2) (by omega) (by rw [guard_polls]; omega)
  refine ⟨w4, ?_⟩
  unfold loop
  simp only []
  rw [hw2]
  exact hw4

theorem run_loop_ok_reachedAfter (N cutoff : Nat) (h : N < cutoff) :
    ∀ (passes : Nat) (w : World), ∃ w1, run_loop (reachedAfter N) cutoff passes w = .ok w1 := by
  intro passes
  induction passes with
  | zero => intro w; exact ⟨w, rfl⟩
  | succ n ih =>
    intro w
    obtain ⟨w2, hw2⟩ := loop_ok_reachedAfter N cutoff h w
    obtain ⟨w1, hw1⟩ := ih w2
    exact ⟨w1, by simp only [run_loop, hw2]; exact hw1⟩

/-! ## The claims about `loop()` -/

/-- C3: for every mock (any sequence of answers of `position_reached`) and every
bounded run of `loop()` (any number of passes, any poll cutoff, completed or cut
off), each `XTARGET` call in the trace comes immediately after a
`position_reached` poll that answered true; so with a mock that never answers
true no target command, neither 250000 nor 0, is issued. -/
theorem xtarget_follows_reached (mock : Nat → Bool) (cutoff passes : Nat) (w0 : World) :
    (∀ pre v rest,
        emitted w0 (lastWorld (run_loop mock cutoff passes w0))
          = pre ++ Action.driver (.XTARGET v) :: rest →
        ∃ pre1, pre = pre1 ++ [Action.driver (.position_reached true)])
    ∧ ((∀ k, mock k = false) →
        ∀ v, Action.driver (.XTARGET v)
          ∉ emitted w0 (lastWorld (run_loop mock cutoff passes w0))) := by
  obtain ⟨q, n, _, hw⟩ := run_loop_walk mock cutoff passes w0
  constructor
  · intro pre v rest h
    rw [h] at hw
    obtain ⟨pre1, _, hp, _⟩ := walk_xtarget_pred hw
    exact ⟨pre1, hp⟩
  · intro hm v hv
    obtain ⟨pre, rest, h⟩ := List.append_of_mem hv
    rw [h] at hw
    obtain ⟨_, k, _, hk⟩ := walk_xtarget_pred hw
    rw [hm k] at hk
    cases hk

/-- C3 on two concrete runs: an always-true mock, where the first command of
the pass follows the first poll, and a never-true mock cut off after 3 polls. -/
theorem xtarget_follows_reached_witness :
    (∃ pre1, [Action.driver (.position_reached true)]
        = pre1 ++ [Action.driver (.position_reached true)])
    ∧ Action.driver (.XTARGET 250000)
        ∉ emitted World.boot (lastWorld (run_loop (fun _ => false) 3 2 World.boot)) :=
  ⟨(xtarget_follows_reached (fun _ => true) 1 1 World.boot).1
      [Action.driver (.position_reached true)] 250000
      [Action.driver (.position_reached true), Action.driver (.position_reached true),
       Action.driver (.XTARGET 0), Action.driver (.position_reached true)] rfl,
   (xtarget_follows_reached (fun _ => false) 3 2 World.boot).2 (fun _ => rfl) 250000⟩

/-- C4, as stated, fails: with a mock that answers true from the first poll,
the call that follows the busy-wait after `XTARGET(250000)` is another
`position_reached` poll (the guard of the second `if`), not `XTARGET(0)`. -/
theorem next_call_after_reached_is_poll :
    ¬ (∀ (N cutoff passes : Nat) (pre rest : List Action) (k : Nat),
        emitted World.boot (lastWorld (run_loop (reachedAfter N) cutoff passes World.boot))
          = pre ++ [Action.driver (.XTARGET 250000)]
              ++ List.replicate k (Action.driver (.position_reached false))
              ++ [Action.driver (.position_reached true)] ++ rest →
        ∃ r, rest = Action.driver (.XTARGET 0) :: r) := by
  intro h
  obtain ⟨r, hr⟩ := h 0 1 1 [Action.driver (.position_reached true)]
    [Action.driver (.position_reached true), Action.driver (.XTARGET 0),
     Action.driver (.position_reached true)] 0 rfl
  cases hr

/-- C4, amended: for every mock that answers false for N polls and then true,
and every bounded run: once `XTARGET(250000)` has been issued and the busy-wait
after it has seen `position_reached` answer true, the very next call to the
driver is one more `position_reached` poll, which answers true, and the call
right after that poll is `XTARGET(0)`; the next target command is therefore 0,
never a second 250000.  With a cutoff above N every pass completes. -/
theorem reached_then_guard_then_opposing_target (N cutoff passes : Nat) (w0 : World) :
    (∀ (pre rest : List Action) (k : Nat),
        emitted w0 (lastWorld (run_loop (reachedAfter N) cutoff passes w0))
          = pre ++ [Action.driver (.XTARGET 250000)]
              ++ List.replicate k (Action.driver (.position_reached false))
              ++ [Action.driver (.position_reached true)] ++ rest →
        ∃ r, rest = Action.driver (.position_reached true)
                      :: Action.driver (.XTARGET 0) :: r)
    ∧ (N < cutoff → ∃ w, run_loop (reachedAfter N) cutoff passes w0 = .ok w) := by
  constructor
  · intro pre rest k h
    obtain ⟨q, n, hq, hw⟩ := run_loop_walk (reachedAfter N) cutoff passes w0
    rw [h] at hw
    obtain ⟨j, rest1, hj, hrest, hnext⟩ := walk_after_reached hq hw
    have hj1 : reachedAfter N (j + 1) = true := by
      simp only [reachedAfter, decide_eq_true_eq] at hj ⊢
      omega
    obtain ⟨r, hr⟩ := hnext hj1
    exact ⟨r, by rw [hrest, hj1, hr]⟩
  · intro h
    exact run_loop_ok_reachedAfter N cutoff h passes w0

/-- C4 amended on a mock that answers false twice: two passes with cutoff 5;
`XTARGET(250000)` is issued in the second pass. -/
theorem reached_then_guard_then_opposing_target_witness :
    (∃ r, [Action.driver (.position_reached true), Action.driver (.XTARGET 0),
           Action.driver (.position_reached true)]
        = Action.driver (.position_reached true) :: Action.driver (.XTARGET 0) :: r)
    ∧ ∃ w, run_loop (reachedAfter 2) 5 2 World.boot = .ok w :=
  ⟨(reached_then_guard_then_opposing_target 2 5 2 World.boot).1
      [Action.driver (.position_reached false), Action.driver (.position_reached false),
       Action.driver (.position_reached true), Action.driver (.position_reached true),
       Action.driver (.XTARGET 0), Action.driver (.position_reached true),
       Action.driver (.position_reached true)]
      [Action.driver (.position_reached true), Action.driver (.XTARGET 0),
       Action.driver (.position_reached true)] 0 rfl,
   (reached_then_guard_then_opposing_target 2 5 2 World.boot).2 (by decide)⟩

/-- C5, as stated, fails: against a mock that answers false on polls 0 and 4
and true otherwise, two passes complete and the target commands are 0, 0: the
sequence does not start with 250000 and repeats a value. -/
theorem targets_need_not_alternate :
    ¬ (∀ (mock : Nat → Bool) (cutoff passes : Nat) (w : World),
        run_loop mock cutoff passes World.boot = .ok w →
        targets (emitted World.boot w) = (List.replicate passes [250000, 0]).flatten) := by
  intro h
  have h2 := h (fun k => decide (k % 4 ≠ 0)) 1 2
    (lastWorld (run_loop (fun k => decide (k % 4 ≠ 0)) 1 2 World.boot)) rfl
  have h3 : targets (emitted World.boot
      (lastWorld (run_loop (fun k => decide (k % 4 ≠ 0)) 1 2 World.boot))) = [0, 0] := rfl
  rw [h3] at h2
  revert h2
  decide

/-- C5, amended: for every mock and every poll cutoff, a completed pass of
`loop()` issues at most one 250000 command and after it at most one 0 command:
250000 exactly when the first poll of the pass answers true, 0 exactly when the
poll right after the first busy-wait (which ends at the first later poll `j`
that answers true) answers true.  The commands of any number of completed
passes are these per-pass lists joined in order.  When `position_reached`
always answers true and the cutoff is positive, every pass completes and issues
exactly 250000 then 0, so the sequence is 250000, 0, 250000, 0, ... -/
theorem loop_targets_per_pass (mock : Nat → Bool) (cutoff passes : Nat) (w0 : World) :
    (∀ w, loop mock cutoff w0 = .ok w →
        ∃ j, w0.polls < j ∧ mock j = true ∧ (∀ i, w0.polls < i → i < j → mock i = false)
          ∧ targets (emitted w0 w) = passTargets (mock w0.polls, mock (j + 1)))
    ∧ (∀ w, run_loop mock cutoff passes w0 = .ok w →
        ∃ gs : List (Bool × Bool), gs.length = passes
          ∧ targets (emitted w0 w) = (gs.map passTargets).flatten)
    ∧ ((∀ k, mock k = true) → 0 < cutoff →
        ∃ w, run_loop mock cutoff passes w0 = .ok w
          ∧ targets (emitted w0 w) = (List.replicate passes [250000, 0]).flatten) := by
  refine ⟨?_, ?_, ?_⟩
  · intro w h
    obtain ⟨j, l, hj, hm, hall, hl, ht⟩ := loop_ok_targets mock cutoff w0 w h
    exact ⟨j, hj, hm, hall, by rw [emitted_append _ _ _ hl]; exact ht⟩
  · intro w h
    obtain ⟨gs, l, hlen, hl, ht⟩ := run_loop_ok_targets mock cutoff passes w0 w h
    exact ⟨gs, hlen, by rw [emitted_append _ _ _ hl]; exact ht⟩
  · intro hm hc
    obtain ⟨c, rfl⟩ : ∃ c, cutoff = c + 1 := ⟨cutoff - 1, by omega⟩
    exact run_loop_all_true mock hm c passes w0

/-- C5 amended on concrete runs: the mock of the counterexample (one pass and
two passes), and an always-true mock over three passes. -/
theorem loop_targets_per_pass_witness :
    (∃ j, 0 < j ∧ decide (j % 4 ≠ 0) = true
        ∧ (∀ i, 0 < i → i < j → decide (i % 4 ≠ 0) = false)
        ∧ targets (emitted World.boot
            (lastWorld (loop (fun k => decide (k % 4 ≠ 0)) 1 World.boot)))
          = passTargets (decide (0 % 4 ≠ 0), decide ((j + 1) % 4 ≠ 0)))
    ∧ (∃ gs : List (Bool × Bool), gs.length = 2
        ∧ targets (emitted World.boot
            (lastWorld (run_loop (fun k => decide (k % 4 ≠ 0)) 1 2 World.boot)))
          = (gs.map passTargets).flatten)
    ∧ ∃ w, run_loop (fun _ => true) 1 3 World.boot = .ok w
        ∧ targets (emitted World.boot w) = (List.replicate 3 [250000, 0]).flatten :=
  ⟨(loop_targets_per_pass (fun k => decide (k % 4 ≠ 0)) 1 2 World.boot).1 _ rfl,
   (loop_targets_per_pass (fun k => decide (k % 4 ≠ 0)) 1 2 World.boot).2.1 _ rfl,
   (loop_targets_per_pass (fun _ => true) 1 3 World.boot).2.2 (fun _ => rfl) (by decide)⟩

end TMC5160
